import Mathlib

/-!
Verification development for the LearnPulse extension core: the SM-2
spaced-repetition engine, the multi-backend fallback orchestrator, the
content chunker, flashcard merging, lesson persistence and streak stats.
Each definition is a shallow embedding of the corresponding JavaScript
function; JavaScript numbers are modelled as exact rationals, machine
strings as Lean strings, and absent object fields as Option values.
-/

namespace LearnPulse

/-- Model of the JavaScript falsy-default idiom `if (!x) x = d`: an absent
field or a zero value is replaced by the default `d`. -/
def jsOr (v : Option ℚ) (d : ℚ) : ℚ :=
  match v with
  | none => d
  | some x => if x = 0 then d else x

/-- Model of JavaScript `Math.round`: half-up rounding toward positive
infinity, `Math.round x = floor (x + 0.5)` for every finite `x`. -/
def jsRound (x : ℚ) : ℤ := ⌊x + 1 / 2⌋

/-- Input flashcard for the SM-2 engine (`srs-engine.js`). The scheduling
fields may be absent, in which case `applySm2Review` fills in defaults. -/
structure Flashcard where
  interval : Option ℚ
  easeFactor : Option ℚ
  repetitions : Option ℚ

/-- Scheduling state of a flashcard after a review. The `dueDate` and
timestamps written by the source are wall-clock outputs and are not part of
the scheduling-state model. -/
structure ReviewedCard where
  interval : ℚ
  easeFactor : ℚ
  repetitions : ℚ
  lastGrade : ℚ

/-- Shallow embedding of `applySm2Review(card, grade)` from
`lib/srs-engine.js`: clamp the grade into [0,5], apply lazy defaults
(ease 2.5, interval 1, repetitions 0), then either reset (grade below 3)
or advance the SM-2 state (grade 3 and above). -/
def applySm2Review (card : Flashcard) (grade : ℚ) : ReviewedCard :=
  let clampedGrade : ℚ := max 0 (min 5 grade)
  let ease := jsOr card.easeFactor (5 / 2)
  let intervalPrior := jsOr card.interval 1
  let reps := jsOr card.repetitions 0
  if clampedGrade < 3 then
    { interval := 1, easeFactor := ease, repetitions := 0, lastGrade := clampedGrade }
  else
    { interval :=
        if reps = 0 then 1
        else if reps = 1 then 6
        else (jsRound (intervalPrior * ease) : ℚ),
      easeFactor :=
        max (13 / 10)
          (ease + (1 / 10 - (5 - clampedGrade) * (2 / 25 + (5 - clampedGrade) * (1 / 50)))),
      repetitions := reps + 1,
      lastGrade := clampedGrade }

/-- C1: for every flashcard and every grade in [0,5], `applySm2Review`
satisfies the SM-2 postcondition. If the clamped grade is below 3 the
repetitions reset to 0 and the interval to 1; otherwise the interval
becomes 1 / 6 / round(prior interval times prior ease) according to the
prior (lazily defaulted) repetition count, repetitions increment by one,
and the ease factor becomes
max(1.3, ease + (0.1 - (5 - g) * (0.08 + (5 - g) * 0.02))). -/
theorem applySm2Review_sm2_postcondition (card : Flashcard) (grade : ℚ)
    (h0 : 0 ≤ grade) (h5 : grade ≤ 5) :
    (max 0 (min 5 grade) < 3 →
      (applySm2Review card grade).repetitions = 0 ∧
      (applySm2Review card grade).interval = 1) ∧
    (3 ≤ max 0 (min 5 grade) →
      (jsOr card.repetitions 0 = 0 → (applySm2Review card grade).interval = 1) ∧
      (jsOr card.repetitions 0 = 1 → (applySm2Review card grade).interval = 6) ∧
      (jsOr card.repetitions 0 ≠ 0 → jsOr card.repetitions 0 ≠ 1 →
        (applySm2Review card grade).interval =
          (jsRound (jsOr card.interval 1 * jsOr card.easeFactor (5 / 2)) : ℚ)) ∧
      (applySm2Review card grade).repetitions = jsOr card.repetitions 0 + 1 ∧
      (applySm2Review card grade).easeFactor =
        max (13 / 10)
          (jsOr card.easeFactor (5 / 2) +
            (1 / 10 - (5 - max 0 (min 5 grade)) *
              (2 / 25 + (5 - max 0 (min 5 grade)) * (1 / 50))))) := by
  refine ⟨fun hlt => ?_, fun hge => ?_⟩
  · simp [applySm2Review, hlt]
  · have hnlt : ¬ max 0 (min 5 grade) < 3 := not_lt.mpr hge
    refine ⟨fun hr => ?_, fun hr => ?_, fun hr0 hr1 => ?_, ?_, ?_⟩
    · norm_num [applySm2Review, hnlt, hr]
    · norm_num [applySm2Review, hnlt, hr]
    · norm_num [applySm2Review, hnlt, hr0, hr1]
    · norm_num [applySm2Review, hnlt]
    · norm_num [applySm2Review, hnlt]

/-- Witness for C1 at the scenario of the claim: grade 5 on a card with
interval 6, ease factor 2.5 and 2 repetitions yields interval 15,
3 repetitions and ease factor 2.6. -/
theorem applySm2Review_sm2_postcondition_witness :
    (0 : ℚ) ≤ 5 ∧ (5 : ℚ) ≤ 5 ∧
    (applySm2Review ⟨some 6, some (5 / 2), some 2⟩ 5).interval = 15 ∧
    (applySm2Review ⟨some 6, some (5 / 2), some 2⟩ 5).repetitions = 3 ∧
    (applySm2Review ⟨some 6, some (5 / 2), some 2⟩ 5).easeFactor = 13 / 5 := by
  have h := applySm2Review_sm2_postcondition ⟨some 6, some (5 / 2), some 2⟩ 5
    (by norm_num) (by norm_num)
  have hge : (3 : ℚ) ≤ max 0 (min 5 5) := by norm_num
  have h2 := h.2 hge
  refine ⟨by norm_num, by norm_num, ?_, ?_, ?_⟩
  · have hi := h2.2.2.1 (by norm_num [jsOr]) (by norm_num [jsOr])
    rw [hi]
    norm_num [jsOr, jsRound]
  · have hr := h2.2.2.2.1
    rw [hr]
    norm_num [jsOr]
  · have he := h2.2.2.2.2
    rw [he]
    norm_num [jsOr]

/-- C2: for every flashcard whose ease factor is absent or at least 1.3 and
every grade in [0,5], the reviewed card has ease factor at least 1.3. -/
theorem applySm2Review_easeFactor_lower_bound (card : Flashcard) (grade : ℚ)
    (h0 : 0 ≤ grade) (h5 : grade ≤ 5)
    (hef : ∀ e, card.easeFactor = some e → 13 / 10 ≤ e) :
    13 / 10 ≤ (applySm2Review card grade).easeFactor := by
  have hease : 13 / 10 ≤ jsOr card.easeFactor (5 / 2) := by
    cases hc : card.easeFactor with
    | none => simp [jsOr]; norm_num
    | some e =>
      by_cases he : e = 0
      · simp [jsOr, he]; norm_num
      · simpa [jsOr, he] using hef e hc
  by_cases hlt : max 0 (min 5 grade) < 3
  · simpa [applySm2Review, hlt] using hease
  · simp [applySm2Review, hlt, le_max_iff]

/-- Witness for C2 at a concrete input: a fresh card (all scheduling fields
absent) graded 0 ends with ease factor at least 1.3. -/
theorem applySm2Review_easeFactor_lower_bound_witness :
    (0 : ℚ) ≤ 0 ∧ (0 : ℚ) ≤ 5 ∧
    13 / 10 ≤ (applySm2Review ⟨none, none, none⟩ 0).easeFactor := by
  refine ⟨le_refl 0, by norm_num, ?_⟩
  exact applySm2Review_easeFactor_lower_bound ⟨none, none, none⟩ 0 (le_refl 0)
    (by norm_num) (by intro e he; cases he)

/-- User settings fields consumed by the generation pipeline core. -/
structure Settings where
  mode : String
  topic : String
deriving DecidableEq

/-- A question/answer pair, the flashcard payload of a lesson result. -/
structure QA where
  question : String
  answer : String
deriving DecidableEq

/-- A curated source chunk as produced by the content chunker. -/
structure Chunk where
  sourceTitle : String
  reference : String
deriving DecidableEq

/-- A recent lesson digest (date and title) in the generation context. -/
structure RecentLesson where
  date : String
  title : String
deriving DecidableEq

/-- Generation context built by `prepareGenerationContext` in the service
worker. `todayDisplay` models the injected wall clock reading
`new Date().toLocaleDateString()` used by the offline fallback title. -/
structure GenerationContext where
  settings : Settings
  recentLessons : List RecentLesson
  dueFlashcards : List QA
  curatedChunks : List Chunk
  todayDisplay : String
deriving DecidableEq

/-- A source reference of a lesson result. -/
structure SourceRef where
  title : String
  reference : String
deriving DecidableEq

/-- The canonical result shape every backend and the offline fallback
produce. -/
structure CanonicalLessonResult where
  title : String
  summary : List String
  lesson : String
  flashcards : List QA
  sources : List SourceRef
  exercise : String
deriving DecidableEq

/-- The three known backend identifiers of the orchestrator. -/
inductive Backend
  | gemini
  | ollama
  | promptApi
deriving DecidableEq

/-- A failure record `\x7bbackend, errorMessage\x7d` pushed by the
orchestrator loop. -/
structure BackendError where
  backend : String
  error : String
deriving DecidableEq

/-- Maps a preference-list entry to the backend branch the orchestrator
loop takes for it; entries matching no branch yield `none`. -/
def parseBackend (s : String) : Option Backend :=
  if s = "gemini" then some Backend.gemini
  else if s = "ollama" then some Backend.ollama
  else if s = "promptApi" then some Backend.promptApi
  else none

/-- The built-in default backend order from `DEFAULT_SETTINGS`. -/
def defaultBackendPreference : List String := ["gemini", "ollama", "promptApi"]

/-- Topic line of the offline fallback: `context.settings?.topic ||
'Independent learning'` with the empty string as the falsy case. -/
def offlineTopic (ctx : GenerationContext) : String :=
  if ctx.settings.topic = "" then "Independent learning" else ctx.settings.topic

/-- The synthetic self-check card pushed by `buildOfflineFallbackLesson`
when no flashcards are due. -/
def offlineSelfCheckCard (ctx : GenerationContext) : QA :=
  { question := "What is one insight about " ++ offlineTopic ctx ++
      " you can recall without assistance?",
    answer := "Write your answer in your notes to reinforce memory." }

/-- Shallow embedding of `buildOfflineFallbackLesson(context, errors)` from
the service worker. Template-literal indentation and newlines are collapsed;
all substituted values are kept. -/
def buildOfflineFallbackLesson (ctx : GenerationContext) (errors : List BackendError) :
    CanonicalLessonResult :=
  let topic := offlineTopic ctx
  let priorLesson := ctx.recentLessons.getLast?
  let body :=
    "<h2>Offline Study Day</h2><p>Our AI backends were unreachable (" ++
      toString errors.length ++
      " errors). Use this self-guided prompt to stay on track.</p><p><strong>Topic focus:</strong> " ++
      topic ++ "</p><ul><li>Summarise what you learned yesterday" ++
      (match priorLesson with
       | some l => " (" ++ l.title ++ ")"
       | none => "") ++
      ".</li><li>Write down two questions you still have.</li><li>Skim one curated source offline and capture a key quote.</li></ul>"
  let flashcards := (ctx.dueFlashcards.take 5).map fun c =>
    ({ question := c.question, answer := c.answer } : QA)
  { title := "Offline reflection — " ++ ctx.todayDisplay,
    summary := ["Offline fallback for " ++ topic ++ ".",
      "Review a recent concept and capture notes manually.",
      "Resolve connectivity or API key issues to resume AI generation."],
    lesson := body,
    flashcards := if flashcards.isEmpty then [offlineSelfCheckCard ctx] else flashcards,
    sources := (ctx.curatedChunks.take 3).map fun ch =>
      ({ title := ch.sourceTitle,
         reference := if ch.reference = "" then "Offline excerpt" else ch.reference } : SourceRef),
    exercise := "Spend 10 minutes journaling what you remember and identify blockers to restore connectivity." }

/-- The orchestrator loop of `executeWithFallback`: walk the preference
list, skip entries matching no backend branch, return the first successful
result, push a failure record per failed attempt, and fall back to the
offline lesson when the list is exhausted. The behaviour of the three
connectors (including API-key retrieval and availability checks) is
injected as `attempt`. -/
def executeWithFallbackGo (attempt : Backend → Except String CanonicalLessonResult)
    (ctx : GenerationContext) :
    List String → List BackendError → CanonicalLessonResult
  | [], errors => buildOfflineFallbackLesson ctx errors
  | b :: rest, errors =>
    match parseBackend b with
    | none => executeWithFallbackGo attempt ctx rest errors
    | some bk =>
      match attempt bk with
      | Except.ok r => r
      | Except.error e => executeWithFallbackGo attempt ctx rest (errors ++ [⟨b, e⟩])

/-- The preference order actually iterated: the configured list when it is
a non-empty array, the built-in default otherwise (`none` models a value
that is not an array). -/
def effectiveBackendOrder (preferences : Option (List String)) : List String :=
  match preferences with
  | some l => if l.isEmpty then defaultBackendPreference else l
  | none => defaultBackendPreference

/-- Shallow embedding of `executeWithFallback(preferences, context)`. -/
def executeWithFallback (attempt : Backend → Except String CanonicalLessonResult)
    (preferences : Option (List String)) (ctx : GenerationContext) : CanonicalLessonResult :=
  executeWithFallbackGo attempt ctx (effectiveBackendOrder preferences) []

/-- The failure records accumulated by a full pass over `order`: one
`\x7bbackend, errorMessage\x7d` entry per known backend whose attempt
fails, in iteration order. -/
def recordedErrors (attempt : Backend → Except String CanonicalLessonResult)
    (order : List String) : List BackendError :=
  order.filterMap fun s =>
    match parseBackend s with
    | none => none
    | some k =>
      match attempt k with
      | Except.ok _ => none
      | Except.error e => some ⟨s, e⟩

lemma executeWithFallbackGo_first_success
    (attempt : Backend → Except String CanonicalLessonResult) (ctx : GenerationContext)
    (b : String) (post : List String) (bk : Backend) (r : CanonicalLessonResult)
    (hb : parseBackend b = some bk) (hr : attempt bk = Except.ok r) :
    ∀ (pre : List String) (errs : List BackendError),
      (∀ s ∈ pre, ∀ k, parseBackend s = some k → ∃ e, attempt k = Except.error e) →
      executeWithFallbackGo attempt ctx (pre ++ b :: post) errs = r := by
  intro pre
  induction pre with
  | nil =>
    intro errs _
    simp [executeWithFallbackGo, hb, hr]
  | cons s rest ih =>
    intro errs hfail
    cases hps : parseBackend s with
    | none =>
      simpa [executeWithFallbackGo, hps] using
        ih errs (fun x hx => hfail x (List.mem_cons_of_mem _ hx))
    | some k =>
      obtain ⟨e, he⟩ := hfail s (List.mem_cons_self _ _) k hps
      simpa [executeWithFallbackGo, hps, he] using
        ih (errs ++ [⟨s, e⟩]) (fun x hx => hfail x (List.mem_cons_of_mem _ hx))

lemma executeWithFallbackGo_all_fail
    (attempt : Backend → Except String CanonicalLessonResult) (ctx : GenerationContext) :
    ∀ (order : List String) (errs : List BackendError),
      (∀ s ∈ order, ∀ k, parseBackend s = some k → ∃ e, attempt k = Except.error e) →
      executeWithFallbackGo attempt ctx order errs =
        buildOfflineFallbackLesson ctx (errs ++ recordedErrors attempt order) := by
  intro order
  induction order with
  | nil => intro errs _; simp [executeWithFallbackGo, recordedErrors]
  | cons s rest ih =>
    intro errs hfail
    cases hps : parseBackend s with
    | none =>
      have htail := ih errs (fun x hx => hfail x (List.mem_cons_of_mem _ hx))
      simp [executeWithFallbackGo, hps, recordedErrors] at htail ⊢
      exact htail
    | some k =>
      obtain ⟨e, he⟩ := hfail s (List.mem_cons_self _ _) k hps
      have htail := ih (errs ++ [⟨s, e⟩]) (fun x hx => hfail x (List.mem_cons_of_mem _ hx))
      simp [executeWithFallbackGo, hps, he, recordedErrors] at htail ⊢
      exact htail

/-- C3: the orchestrator substitutes the built-in default order
[gemini, ollama, promptApi] when the configured list is missing or empty,
tries backends strictly in list order, returns the first successful result
without invoking any later backend (the outcome is unchanged under any
reinterpretation of the backends after the first success), and on a full
failure pass hands the offline fallback exactly one recorded
failure per failed known backend, in order. -/
theorem executeWithFallback_ordered_fallback :
    (defaultBackendPreference = ["gemini", "ollama", "promptApi"]) ∧
    (∀ attempt ctx,
      executeWithFallback attempt none ctx =
        executeWithFallback attempt (some defaultBackendPreference) ctx ∧
      executeWithFallback attempt (some []) ctx =
        executeWithFallback attempt (some defaultBackendPreference) ctx) ∧
    (∀ (attempt attemptB : Backend → Except String CanonicalLessonResult)
        (ctx : GenerationContext) (pre : List String) (b : String)
        (post : List String) (bk : Backend) (r : CanonicalLessonResult),
      (∀ s ∈ pre, ∀ k, parseBackend s = some k → ∃ e, attempt k = Except.error e) →
      parseBackend b = some bk →
      attempt bk = Except.ok r →
      (∀ s ∈ pre, ∀ k, parseBackend s = some k → attemptB k = attempt k) →
      attemptB bk = attempt bk →
      executeWithFallback attemptB (some (pre ++ b :: post)) ctx = r) ∧
    (∀ attempt ctx prefs, prefs ≠ [] →
      (∀ s ∈ prefs, ∀ k, parseBackend s = some k → ∃ e, attempt k = Except.error e) →
      executeWithFallback attempt (some prefs) ctx =
        buildOfflineFallbackLesson ctx (recordedErrors attempt prefs)) := by
  refine ⟨rfl, ?_, ?_, ?_⟩
  · intro attempt ctx
    constructor <;> rfl
  · intro attempt attemptB ctx pre b post bk r hpre hb hr hagree hagreeb
    have hfailB : ∀ s ∈ pre, ∀ k, parseBackend s = some k →
        ∃ e, attemptB k = Except.error e := by
      intro s hs k hk
      obtain ⟨e, he⟩ := hpre s hs k hk
      exact ⟨e, by rw [hagree s hs k hk]; exact he⟩
    have hrB : attemptB bk = Except.ok r := by rw [hagreeb]; exact hr
    have horder : effectiveBackendOrder (some (pre ++ b :: post)) = pre ++ b :: post := by
      have hne : (pre ++ b :: post).isEmpty = false := by cases pre <;> simp
      simp [effectiveBackendOrder, hne]
    unfold executeWithFallback
    rw [horder]
    exact executeWithFallbackGo_first_success attemptB ctx b post bk r hb hrB pre [] hfailB
  · intro attempt ctx prefs hne hfail
    have horder : effectiveBackendOrder (some prefs) = prefs := by
      have hne2 : prefs.isEmpty = false := by
        cases prefs with
        | nil => exact absurd rfl hne
        | cons a l => simp
      simp [effectiveBackendOrder, hne2]
    unfold executeWithFallback
    rw [horder]
    simpa using executeWithFallbackGo_all_fail attempt ctx prefs [] hfail

/-- Witness for C3: with gemini failing and ollama succeeding, the
orchestrator returns the ollama result even though the promptApi backend
would also succeed, and with both gemini and ollama failing the offline
fallback carries both failure records in order. -/
theorem executeWithFallback_ordered_fallback_witness :
    (executeWithFallback
      (fun k =>
        match k with
        | Backend.gemini => Except.error "Missing Gemini API key"
        | Backend.ollama => Except.ok
            ⟨"Ollama lesson", ["a"], "<p>b</p>", [⟨"q", "a"⟩], [], "reflect"⟩
        | Backend.promptApi => Except.ok
            ⟨"Nano lesson", [], "", [], [], ""⟩)
      (some ["gemini", "ollama", "promptApi"])
      ⟨⟨"autonomous", "Rust"⟩, [], [], [], "1/1/2026"⟩ =
      ⟨"Ollama lesson", ["a"], "<p>b</p>", [⟨"q", "a"⟩], [], "reflect"⟩) ∧
    (executeWithFallback
      (fun _ => Except.error "offline")
      (some ["gemini", "ollama"])
      ⟨⟨"autonomous", "Rust"⟩, [], [], [], "1/1/2026"⟩ =
      buildOfflineFallbackLesson ⟨⟨"autonomous", "Rust"⟩, [], [], [], "1/1/2026"⟩
        [⟨"gemini", "offline"⟩, ⟨"ollama", "offline"⟩]) := by
  constructor
  · exact executeWithFallback_ordered_fallback.2.2.1
      (fun k =>
        match k with
        | Backend.gemini => Except.error "Missing Gemini API key"
        | Backend.ollama => Except.ok
            ⟨"Ollama lesson", ["a"], "<p>b</p>", [⟨"q", "a"⟩], [], "reflect"⟩
        | Backend.promptApi => Except.ok
            ⟨"Nano lesson", [], "", [], [], ""⟩)
      _ _ ["gemini"] "ollama" ["promptApi"] Backend.ollama _
      (by
        intro s hs k hk
        rw [List.mem_singleton] at hs
        subst hs
        simp [parseBackend] at hk
        subst hk
        exact ⟨"Missing Gemini API key", rfl⟩)
      (by decide) rfl (fun s hs k hk => rfl) rfl
  · have h := executeWithFallback_ordered_fallback.2.2.2
      (fun _ => Except.error "offline")
      ⟨⟨"autonomous", "Rust"⟩, [], [], [], "1/1/2026"⟩
      ["gemini", "ollama"] (by decide)
      (by intro s hs k hk; exact ⟨"offline", rfl⟩)
    rw [h]
    rfl

/-- C4: when every known backend in the effective preference order fails,
the orchestrator returns the offline fallback lesson (it is a total
function, so it never throws), whose flashcard list is the currently due
cards capped at 5, or exactly one synthetic self-check card when none are
due; its length is always between 1 and 5. -/
theorem executeWithFallback_offline_fallback_flashcards
    (attempt : Backend → Except String CanonicalLessonResult)
    (prefs : Option (List String)) (ctx : GenerationContext)
    (hfail : ∀ s ∈ effectiveBackendOrder prefs, ∀ k, parseBackend s = some k →
      ∃ e, attempt k = Except.error e) :
    executeWithFallback attempt prefs ctx =
      buildOfflineFallbackLesson ctx
        (recordedErrors attempt (effectiveBackendOrder prefs)) ∧
    1 ≤ (executeWithFallback attempt prefs ctx).flashcards.length ∧
    (executeWithFallback attempt prefs ctx).flashcards.length ≤ 5 ∧
    (ctx.dueFlashcards = [] →
      (executeWithFallback attempt prefs ctx).flashcards = [offlineSelfCheckCard ctx]) ∧
    (ctx.dueFlashcards ≠ [] →
      (executeWithFallback attempt prefs ctx).flashcards =
        (ctx.dueFlashcards.take 5).map fun c => ⟨c.question, c.answer⟩) := by
  have hmain : executeWithFallback attempt prefs ctx =
      buildOfflineFallbackLesson ctx
        (recordedErrors attempt (effectiveBackendOrder prefs)) := by
    unfold executeWithFallback
    simpa using executeWithFallbackGo_all_fail attempt ctx (effectiveBackendOrder prefs) [] hfail
  refine ⟨hmain, ?_, ?_, ?_, ?_⟩ <;> rw [hmain]
  · by_cases hdue : ctx.dueFlashcards = []
    · simp [buildOfflineFallbackLesson, hdue]
    · have hne : ((ctx.dueFlashcards.take 5).map fun c =>
          ({ question := c.question, answer := c.answer } : QA)) ≠ [] := by
        simp [hdue]
      simp only [buildOfflineFallbackLesson]
      rw [if_neg (by simpa [List.isEmpty_iff] using hne)]
      have : 0 < ctx.dueFlashcards.length := List.length_pos.mpr hdue
      simp [List.length_take]
      omega
  · by_cases hdue : ctx.dueFlashcards = []
    · simp [buildOfflineFallbackLesson, hdue]
    · have hne : ((ctx.dueFlashcards.take 5).map fun c =>
          ({ question := c.question, answer := c.answer } : QA)) ≠ [] := by
        simp [hdue]
      simp only [buildOfflineFallbackLesson]
      rw [if_neg (by simpa [List.isEmpty_iff] using hne)]
      simp [List.length_take]
  · intro hdue
    simp [buildOfflineFallbackLesson, hdue]
  · intro hdue
    have hne : ((ctx.dueFlashcards.take 5).map fun c =>
        ({ question := c.question, answer := c.answer } : QA)) ≠ [] := by
      simp [hdue]
    simp only [buildOfflineFallbackLesson]
    rw [if_neg (by simpa [List.isEmpty_iff] using hne)]

/-- Witness for C4: with every backend failing and no due flashcards, the
orchestrator produces exactly one synthetic self-check card. -/
theorem executeWithFallback_offline_fallback_flashcards_witness :
    1 ≤ (executeWithFallback (fun _ => Except.error "down")
        (some ["gemini", "ollama", "promptApi"])
        ⟨⟨"autonomous", ""⟩, [], [], [], "1/1/2026"⟩).flashcards.length ∧
    (executeWithFallback (fun _ => Except.error "down")
        (some ["gemini", "ollama", "promptApi"])
        ⟨⟨"autonomous", ""⟩, [], [], [], "1/1/2026"⟩).flashcards.length ≤ 5 ∧
    (executeWithFallback (fun _ => Except.error "down")
        (some ["gemini", "ollama", "promptApi"])
        ⟨⟨"autonomous", ""⟩, [], [], [], "1/1/2026"⟩).flashcards =
      [offlineSelfCheckCard ⟨⟨"autonomous", ""⟩, [], [], [], "1/1/2026"⟩] := by
  have h := executeWithFallback_offline_fallback_flashcards
    (fun _ => Except.error "down")
    (some ["gemini", "ollama", "promptApi"])
    ⟨⟨"autonomous", ""⟩, [], [], [], "1/1/2026"⟩
    (by intro s hs k hk; exact ⟨"down", rfl⟩)
  exact ⟨h.2.1, h.2.2.1, h.2.2.2.1 rfl⟩

/-- C10: a preference entry that is none of gemini, ollama or promptApi is
silently skipped by the orchestrator: it is neither attempted nor recorded
as a failure, and a preference list holding only unknown identifiers
produces the offline fallback with zero recorded errors. -/
theorem executeWithFallback_unknown_backends_skipped :
    (∀ attempt ctx u rest errs,
      u ≠ "gemini" → u ≠ "ollama" → u ≠ "promptApi" →
      executeWithFallbackGo attempt ctx (u :: rest) errs =
        executeWithFallbackGo attempt ctx rest errs) ∧
    (∀ attempt ctx prefs, prefs ≠ [] →
      (∀ s ∈ prefs, s ≠ "gemini" ∧ s ≠ "ollama" ∧ s ≠ "promptApi") →
      executeWithFallback attempt (some prefs) ctx =
        buildOfflineFallbackLesson ctx []) := by
  have hpn : ∀ u : String, u ≠ "gemini" → u ≠ "ollama" → u ≠ "promptApi" →
      parseBackend u = none := by
    intro u h1 h2 h3
    simp [parseBackend, h1, h2, h3]
  constructor
  · intro attempt ctx u rest errs h1 h2 h3
    simp [executeWithFallbackGo, hpn u h1 h2 h3]
  · intro attempt ctx prefs hne hunk
    have hgo : ∀ (l : List String) (errs : List BackendError),
        (∀ s ∈ l, s ≠ "gemini" ∧ s ≠ "ollama" ∧ s ≠ "promptApi") →
        executeWithFallbackGo attempt ctx l errs = buildOfflineFallbackLesson ctx errs := by
      intro l
      induction l with
      | nil => intro errs _; simp [executeWithFallbackGo]
      | cons s rest ih =>
        intro errs hl
        obtain ⟨h1, h2, h3⟩ := hl s (List.mem_cons_self _ _)
        rw [show executeWithFallbackGo attempt ctx (s :: rest) errs =
            executeWithFallbackGo attempt ctx rest errs by
          simp [executeWithFallbackGo, hpn s h1 h2 h3]]
        exact ih errs (fun x hx => hl x (List.mem_cons_of_mem _ hx))
    have horder : effectiveBackendOrder (some prefs) = prefs := by
      have hne2 : prefs.isEmpty = false := by
        cases prefs with
        | nil => exact absurd rfl hne
        | cons a l => simp
      simp [effectiveBackendOrder, hne2]
    unfold executeWithFallback
    rw [horder]
    exact hgo prefs [] hunk

/-- Witness for C10: a preference list holding only the unknown identifier
chatgpt yields the offline fallback with zero recorded errors, with no
backend attempted. -/
theorem executeWithFallback_unknown_backends_skipped_witness :
    executeWithFallback (fun _ => Except.error "never called")
      (some ["chatgpt"]) ⟨⟨"autonomous", "Rust"⟩, [], [], [], "1/1/2026"⟩ =
      buildOfflineFallbackLesson ⟨⟨"autonomous", "Rust"⟩, [], [], [], "1/1/2026"⟩ [] := by
  exact executeWithFallback_unknown_backends_skipped.2
    (fun _ => Except.error "never called")
    ⟨⟨"autonomous", "Rust"⟩, [], [], [], "1/1/2026"⟩
    ["chatgpt"] (by decide)
    (by
      intro s hs
      rw [List.mem_singleton] at hs
      subst hs
      exact ⟨by decide, by decide, by decide⟩)

/-- A flashcard as persisted by the service worker: the shape produced by
`persistDailyContent` for new cards and maintained by merging and grading. -/
structure StoredCard where
  id : String
  question : String
  answer : String
  sourceLessonId : String
  interval : ℚ
  easeFactor : ℚ
  repetitions : ℚ
  dueDate : String
deriving DecidableEq

/-- The lookup backing `indexByQuestion` in `mergeFlashcards`: a JavaScript
Map built from (question, index) pairs over the existing list, so a
duplicated question resolves to its last index. -/
def indexByQuestion (existing : List StoredCard) (q : String) : Option ℕ :=
  ((existing.enum.filter fun p => p.2.question = q).getLast?).map fun p => p.1

/-- In-place update of the element at index `i`, as JavaScript
`merged[index] = ...` on an array. -/
def updateAt : List α → ℕ → (α → α) → List α
  | [], _, _ => []
  | a :: l, 0, f => f a :: l
  | a :: l, n + 1, f => a :: updateAt l n f

/-- The per-match object-spread update of `mergeFlashcards`: keep the
existing card, overwrite the source-lesson link, interval and due date with
the incoming values, and apply the falsy-guard idiom to the kept ease
factor and repetitions. -/
def mergedCardUpdate (prev c : StoredCard) : StoredCard :=
  { prev with
    sourceLessonId := c.sourceLessonId,
    interval := c.interval,
    easeFactor := if prev.easeFactor = 0 then c.easeFactor else prev.easeFactor,
    repetitions := if prev.repetitions = 0 then 0 else prev.repetitions,
    dueDate := c.dueDate }

/-- The loop of `mergeFlashcards`: `orig` is the list the question map was
built from (the existing cards, it never changes during the loop), `merged`
is the accumulator that starts as a copy of the existing cards. -/
def mergeAux (orig : List StoredCard) : List StoredCard → List StoredCard → List StoredCard
  | merged, [] => merged
  | merged, c :: rest =>
    match indexByQuestion orig c.question with
    | some i => mergeAux orig (updateAt merged i fun prev => mergedCardUpdate prev c) rest
    | none => mergeAux orig (merged ++ [c]) rest

/-- Shallow embedding of `mergeFlashcards(existing, incoming)` from the
service worker. -/
def mergeFlashcards (existing incoming : List StoredCard) : List StoredCard :=
  mergeAux existing existing incoming

lemma updateAt_congr (l : List α) (i : ℕ) (prev : α) (f : α → α)
    (h : l.get? i = some prev) :
    updateAt l i f = updateAt l i fun _ => f prev := by
  induction l generalizing i with
  | nil => simp at h
  | cons a t ih =>
    cases i with
    | zero =>
      simp at h
      subst h
      rfl
    | succ n =>
      rw [List.get?_cons_succ] at h
      simp [updateAt, ih n h]

lemma mergeAux_all_fresh (orig : List StoredCard) :
    ∀ (incoming merged : List StoredCard),
      (∀ c ∈ incoming, indexByQuestion orig c.question = none) →
      mergeAux orig merged incoming = merged ++ incoming := by
  intro incoming
  induction incoming with
  | nil => intro merged _; simp [mergeAux]
  | cons c rest ih =>
    intro merged hfresh
    have hc := hfresh c (List.mem_cons_self _ _)
    simp only [mergeAux, hc]
    rw [ih (merged ++ [c]) fun x hx => hfresh x (List.mem_cons_of_mem _ hx)]
    simp

/-- C6: merging one incoming card whose question matches an existing card
(in a valid state, ease at least 1.3) keeps the existing repetitions and
ease factor while overwriting the due date, source-lesson link and
interval; incoming cards with unseen questions are appended as fresh
cards. -/
theorem mergeFlashcards_refresh_semantics :
    (∀ (existing : List StoredCard) (c : StoredCard) (i : ℕ) (prev : StoredCard),
      indexByQuestion existing c.question = some i →
      existing.get? i = some prev →
      13 / 10 ≤ prev.easeFactor →
      mergeFlashcards existing [c] =
        updateAt existing i fun _ =>
          { prev with
            sourceLessonId := c.sourceLessonId,
            interval := c.interval,
            dueDate := c.dueDate }) ∧
    (∀ (existing incoming : List StoredCard),
      (∀ c ∈ incoming, indexByQuestion existing c.question = none) →
      mergeFlashcards existing incoming = existing ++ incoming) := by
  constructor
  · intro existing c i prev hidx hget hease
    have hone : mergeFlashcards existing [c] =
        updateAt existing i fun p => mergedCardUpdate p c := by
      simp [mergeFlashcards, mergeAux, hidx]
    rw [hone, updateAt_congr existing i prev _ hget]
    have hefne : prev.easeFactor ≠ 0 := by
      intro h0
      rw [h0] at hease
      norm_num at hease
    have hupd : mergedCardUpdate prev c =
        { prev with
          sourceLessonId := c.sourceLessonId,
          interval := c.interval,
          dueDate := c.dueDate } := by
      unfold mergedCardUpdate
      rw [if_neg hefne]
      by_cases hr : prev.repetitions = 0
      · rw [if_pos hr, hr]
      · rw [if_neg hr]
    rw [hupd]
  · intro existing incoming hfresh
    exact mergeAux_all_fresh existing incoming existing hfresh

/-- Witness for C6: refreshing a matching card keeps ease 2.5 and
3 repetitions while adopting the new due date, lesson link and interval,
and a card with a new question is appended. -/
theorem mergeFlashcards_refresh_semantics_witness :
    mergeFlashcards
      [⟨"card-a", "Q1", "old", "lesson-2026-01-01", 6, 5 / 2, 3, "2026-01-05"⟩]
      [⟨"card-b", "Q1", "new", "lesson-2026-01-10", 1, 5 / 2, 0, "2026-01-10"⟩] =
      [⟨"card-a", "Q1", "old", "lesson-2026-01-10", 1, 5 / 2, 3, "2026-01-10"⟩] ∧
    mergeFlashcards
      [⟨"card-a", "Q1", "old", "lesson-2026-01-01", 6, 5 / 2, 3, "2026-01-05"⟩]
      [⟨"card-c", "Q2", "fresh", "lesson-2026-01-10", 1, 5 / 2, 0, "2026-01-10"⟩] =
      [⟨"card-a", "Q1", "old", "lesson-2026-01-01", 6, 5 / 2, 3, "2026-01-05"⟩,
       ⟨"card-c", "Q2", "fresh", "lesson-2026-01-10", 1, 5 / 2, 0, "2026-01-10"⟩] := by
  constructor
  · rw [mergeFlashcards_refresh_semantics.1
      [⟨"card-a", "Q1", "old", "lesson-2026-01-01", 6, 5 / 2, 3, "2026-01-05"⟩]
      ⟨"card-b", "Q1", "new", "lesson-2026-01-10", 1, 5 / 2, 0, "2026-01-10"⟩
      0 ⟨"card-a", "Q1", "old", "lesson-2026-01-01", 6, 5 / 2, 3, "2026-01-05"⟩
      (by decide) rfl (by norm_num)]
    rfl
  · rw [mergeFlashcards_refresh_semantics.2
      [⟨"card-a", "Q1", "old", "lesson-2026-01-01", 6, 5 / 2, 3, "2026-01-05"⟩]
      [⟨"card-c", "Q2", "fresh", "lesson-2026-01-10", 1, 5 / 2, 0, "2026-01-10"⟩]
      (by decide)]
    rfl

/-- Year component of an ISO day key, zero padded to four digits as in the
ISO string output of the source. -/
def pad4 (n : ℕ) : String :=
  if n < 10 then "000" ++ toString n
  else if n < 100 then "00" ++ toString n
  else if n < 1000 then "0" ++ toString n
  else toString n

/-- Two-digit zero padding for month and day components. -/
def pad2 (n : ℕ) : String :=
  if n < 10 then "0" ++ toString n else toString n

/-- Numeric value of a decimal digit character. -/
def digitVal (c : Char) : ℕ := c.toNat - 48

/-- Decimal reading of a digit run. -/
def digitsToNat (l : List Char) : ℕ := l.foldl (fun acc c => acc * 10 + digitVal c) 0

/-- Parse an ISO day key `YYYY-MM-DD` into year, month and day numbers. -/
def parseDayKey (s : String) : ℕ × ℕ × ℕ :=
  match s.toList.splitOn '-' with
  | [y, m, d] => (digitsToNat y, digitsToNat m, digitsToNat d)
  | _ => (0, 0, 0)

/-- Gregorian leap-year test. -/
def isLeapYear (y : ℕ) : Bool := y % 4 = 0 && (y % 100 ≠ 0 || y % 400 = 0)

/-- Number of days of a Gregorian month. -/
def daysInMonth (y m : ℕ) : ℕ :=
  if m = 2 then (if isLeapYear y then 29 else 28)
  else if m = 4 || m = 6 || m = 9 || m = 11 then 30
  else 31

/-- Format a date back into an ISO day key. -/
def formatDayKey (y m d : ℕ) : String :=
  pad4 y ++ "-" ++ pad2 m ++ "-" ++ pad2 d

/-- The yesterday-key computation of `updateStats`, which builds a Date
from the day key, steps it back one day and reads the ISO day key back.
Modelled as pure Gregorian previous-day arithmetic on the key. -/
def prevDayKey (todayKey : String) : String :=
  let p := parseDayKey todayKey
  if 2 ≤ p.2.2 then formatDayKey p.1 p.2.1 (p.2.2 - 1)
  else if 2 ≤ p.2.1 then formatDayKey p.1 (p.2.1 - 1) (daysInMonth p.1 (p.2.1 - 1))
  else formatDayKey (p.1 - 1) 12 31

/-- Stats record persisted by the service worker. -/
structure Stats where
  streak : ℕ
  lastLessonDate : Option String
  totalLessons : ℕ
  totalFlashcardsReviewed : ℕ
  flashcardsGeneratedToday : ℕ
deriving DecidableEq

/-- Shallow embedding of `updateStats(stats, todayKey, newCardCount)` from
the service worker. -/
def updateStats (stats : Stats) (todayKey : String) (newCardCount : ℕ) : Stats :=
  let yesterdayKey := prevDayKey todayKey
  { streak :=
      if stats.lastLessonDate = some todayKey then stats.streak
      else if stats.lastLessonDate = some yesterdayKey then stats.streak + 1
      else 1,
    lastLessonDate := some todayKey,
    totalLessons := stats.totalLessons + 1,
    totalFlashcardsReviewed := stats.totalFlashcardsReviewed,
    flashcardsGeneratedToday := newCardCount }

/-- C8: the stats update increments the streak when the last lesson date is
yesterday, keeps it when the last lesson date is today, and resets it to 1
for any other value including null. The hypothesis records that the two
keys differ, which holds for every well-formed day key. -/
theorem updateStats_streak_rules (stats : Stats) (todayKey : String) (n : ℕ)
    (hkeys : prevDayKey todayKey ≠ todayKey) :
    (stats.lastLessonDate = some (prevDayKey todayKey) →
      (updateStats stats todayKey n).streak = stats.streak + 1) ∧
    (stats.lastLessonDate = some todayKey →
      (updateStats stats todayKey n).streak = stats.streak) ∧
    (stats.lastLessonDate ≠ some todayKey →
      stats.lastLessonDate ≠ some (prevDayKey todayKey) →
      (updateStats stats todayKey n).streak = 1) := by
  refine ⟨fun hy => ?_, fun ht => ?_, fun hnt hny => ?_⟩
  · have hnott : stats.lastLessonDate ≠ some todayKey := by
      rw [hy]
      intro h
      exact hkeys (Option.some_injective _ h)
    simp [updateStats, hnott, hy]
    exact hkeys
  · simp [updateStats, ht]
  · simp [updateStats, hnt, hny]

/-- Witness for C8 on concrete dates: from a last lesson on 2026-10-10, a
lesson on 2026-10-11 grows the streak from 3 to 4; repeating today keeps
it; a stale date resets it to 1. -/
theorem updateStats_streak_rules_witness :
    (updateStats ⟨3, some "2026-10-10", 7, 9, 0⟩ "2026-10-11" 6).streak = 4 ∧
    (updateStats ⟨3, some "2026-10-11", 7, 9, 0⟩ "2026-10-11" 6).streak = 3 ∧
    (updateStats ⟨3, some "2026-09-01", 7, 9, 0⟩ "2026-10-11" 6).streak = 1 := by
  refine ⟨?_, ?_, ?_⟩
  · rw [(updateStats_streak_rules ⟨3, some "2026-10-10", 7, 9, 0⟩ "2026-10-11" 6
      (by decide)).1 (by decide)]
  · rw [(updateStats_streak_rules ⟨3, some "2026-10-11", 7, 9, 0⟩ "2026-10-11" 6
      (by decide)).2.1 rfl]
  · rw [(updateStats_streak_rules ⟨3, some "2026-09-01", 7, 9, 0⟩ "2026-10-11" 6
      (by decide)).2.2 (by decide) (by decide)]

/-- Membership test for the JavaScript regex whitespace class, restricted
to the whitespace characters the chunker can meet in practice (ASCII
whitespace and the no-break space). -/
def isJsWhitespace (c : Char) : Bool :=
  c = ' ' || c = '\t' || c = '\n' || c = '\r' || c = '\x0b' || c = '\x0c' || c = ' '

/-- Helper for `collapseWhitespace`: the boolean flag records whether the
previous character belonged to a whitespace run already replaced. -/
def collapseWhitespaceAux : List Char → Bool → List Char
  | [], _ => []
  | c :: rest, inRun =>
    if isJsWhitespace c then
      if inRun then collapseWhitespaceAux rest true
      else ' ' :: collapseWhitespaceAux rest true
    else c :: collapseWhitespaceAux rest false

/-- First step of `sanitiseText`: collapse every whitespace run into a
single space, as `replace(\s+, one space)` does. -/
def collapseWhitespace (l : List Char) : List Char :=
  collapseWhitespaceAux l false

/-- Second step of `sanitiseText`: replace the no-break space by a plain
space. -/
def nbspToSpace (c : Char) : Char := if c = ' ' then ' ' else c

/-- Final step of `sanitiseText`: trim whitespace from both ends. -/
def jsTrim (l : List Char) : List Char :=
  (((l.dropWhile isJsWhitespace).reverse.dropWhile isJsWhitespace)).reverse

/-- Shallow embedding of `sanitiseText` from `lib/content-chunker.js`:
collapse whitespace runs, map the no-break space to a space, trim. -/
def sanitiseText (l : List Char) : List Char :=
  jsTrim ((collapseWhitespace l).map nbspToSpace)

/-- The fixed chunk window size of the chunker. -/
def DEFAULT_CHUNK_SIZE : ℕ := 900

/-- Shallow embedding of `splitIntoChunks(text, chunkSize)` at the only
call size 900: slice consecutive windows until the cursor passes the end. -/
def splitIntoChunks (text : List Char) : List (List Char) :=
  if text = [] then []
  else text.take DEFAULT_CHUNK_SIZE :: splitIntoChunks (text.drop DEFAULT_CHUNK_SIZE)
termination_by text.length
decreasing_by
  rename_i hne
  have hpos : 0 < text.length := List.length_pos.mpr hne
  simp only [List.length_drop, DEFAULT_CHUNK_SIZE]
  omega

/-- Shallow embedding of the per-source loop of `chunkSources`, applied to
the already resolved source texts (resolution is network and file input and
is injected). A falsy resolved text is skipped before sanitising; the
attribution metadata attached to each chunk is not modelled, only the chunk
texts and their order. -/
def chunkSources (texts : List (List Char)) : List (List Char) :=
  texts.foldl (fun acc t => if t = [] then acc else acc ++ splitIntoChunks (sanitiseText t)) []

lemma splitIntoChunks_nil : splitIntoChunks [] = [] := by
  rw [splitIntoChunks]
  simp

lemma splitIntoChunks_flatten (s : List Char) : (splitIntoChunks s).flatten = s := by
  induction s using splitIntoChunks.induct with
  | case1 => simp [splitIntoChunks_nil]
  | case2 s hne ih =>
    rw [splitIntoChunks, if_neg hne]
    simp only [List.flatten_cons, ih]
    exact List.take_append_drop _ s

lemma splitIntoChunks_get? (s : List Char) :
    ∀ i : ℕ, DEFAULT_CHUNK_SIZE * i < s.length →
      (splitIntoChunks s).get? i =
        some ((s.drop (DEFAULT_CHUNK_SIZE * i)).take DEFAULT_CHUNK_SIZE) := by
  induction s using splitIntoChunks.induct with
  | case1 =>
    intro i h
    simp at h
  | case2 s hne ih =>
    intro i h
    rw [splitIntoChunks, if_neg hne]
    cases i with
    | zero => simp
    | succ n =>
      have hlt : DEFAULT_CHUNK_SIZE * n < (s.drop DEFAULT_CHUNK_SIZE).length := by
        simp only [List.length_drop]
        have : DEFAULT_CHUNK_SIZE * (n + 1) < s.length := h
        simp only [DEFAULT_CHUNK_SIZE] at this ⊢
        omega
      rw [List.get?_cons_succ, ih n hlt, List.drop_drop]
      have harith : DEFAULT_CHUNK_SIZE + DEFAULT_CHUNK_SIZE * n = DEFAULT_CHUNK_SIZE * (n + 1) := by
        ring
      rw [harith]

lemma chunkSources_foldl (texts : List (List Char)) :
    ∀ acc : List (List Char),
      texts.foldl (fun acc t => if t = [] then acc else acc ++ splitIntoChunks (sanitiseText t)) acc =
        acc ++ (texts.map fun t => if t = [] then [] else splitIntoChunks (sanitiseText t)).flatten := by
  induction texts with
  | nil => intro acc; simp
  | cons t rest ih =>
    intro acc
    by_cases ht : t = []
    · simp [ht, ih]
    · simp only [List.foldl_cons, if_neg ht, List.map_cons, List.flatten_cons]
      rw [ih]
      simp

/-- Counterexample to C9: a curated source resolving to a single space is
not skipped by the falsy guard, its normalized text is empty and therefore
shorter than the 900-character window, yet chunking yields zero chunks for
it, not exactly one. -/
theorem splitIntoChunks_empty_text_counterexample :
    ([' '] : List Char) ≠ [] ∧
    (sanitiseText [' ']).length < DEFAULT_CHUNK_SIZE ∧
    (chunkSources [[' ']]).length = 0 := by
  have hsan : sanitiseText [' '] = [] := by decide
  refine ⟨by decide, ?_, ?_⟩
  · rw [hsan]
    decide
  · simp [chunkSources, hsan, splitIntoChunks_nil]

/-- C9 as amended: a source whose normalized text is nonempty and shorter
than the 900-character window yields exactly one chunk holding the whole
text, while an empty normalized text yields no chunk; longer texts are cut
into consecutive fixed 900-character windows (chunk i is the 900-window at
offset 900 i) whose concatenation restores the text; and chunkSources
emits the per-source chunk blocks in source order. -/
theorem splitIntoChunks_window_semantics :
    (∀ s : List Char, s ≠ [] → s.length < DEFAULT_CHUNK_SIZE →
      splitIntoChunks s = [s]) ∧
    (splitIntoChunks [] = []) ∧
    (∀ s : List Char, (splitIntoChunks s).flatten = s) ∧
    (∀ (s : List Char) (i : ℕ), DEFAULT_CHUNK_SIZE * i < s.length →
      (splitIntoChunks s).get? i =
        some ((s.drop (DEFAULT_CHUNK_SIZE * i)).take DEFAULT_CHUNK_SIZE)) ∧
    (∀ texts : List (List Char),
      chunkSources texts =
        (texts.map fun t => if t = [] then [] else splitIntoChunks (sanitiseText t)).flatten) := by
  refine ⟨?_, splitIntoChunks_nil, splitIntoChunks_flatten, splitIntoChunks_get?, ?_⟩
  · intro s hne hlen
    rw [splitIntoChunks, if_neg hne, List.take_of_length_le (le_of_lt hlen),
      List.drop_eq_nil_of_le (le_of_lt hlen), splitIntoChunks_nil]
  · intro texts
    exact chunkSources_foldl texts []

/-- Witness for the amended C9: the two-character text ab is below the
window size and yields the single chunk ab, whose window at offset 0 is the
whole text. -/
theorem splitIntoChunks_window_semantics_witness :
    (['a', 'b'] : List Char) ≠ [] ∧
    (['a', 'b'] : List Char).length < DEFAULT_CHUNK_SIZE ∧
    splitIntoChunks ['a', 'b'] = [['a', 'b']] ∧
    (splitIntoChunks ['a', 'b']).get? 0 =
      some (((['a', 'b'] : List Char).drop (DEFAULT_CHUNK_SIZE * 0)).take DEFAULT_CHUNK_SIZE) := by
  refine ⟨by decide, by decide, ?_, ?_⟩
  · exact splitIntoChunks_window_semantics.1 ['a', 'b'] (by decide) (by decide)
  · exact splitIntoChunks_window_semantics.2.2.2.1 ['a', 'b'] 0 (by decide)

/-- Model of the dynamically typed object a successful JSON parse yields,
restricted to the field shapes the normalisers inspect: `summaryArr` is
populated exactly when `Array.isArray(parsed.summary)` holds, otherwise
`summaryScalar` carries a truthy scalar summary; string fields are `none`
when absent or falsy is modelled by the empty string downstream. -/
structure ParsedPayload where
  title : Option String
  summaryArr : Option (List String)
  summaryScalar : Option String
  lesson : Option String
  flashcardsArr : Option (List QA)
  sourcesArr : Option (List SourceRef)
  exercise : Option String
deriving DecidableEq

/-- Embedding of `generateFallbackTitle(settings)` from `llm-gemini.js`. -/
def generateFallbackTitle (settings : Settings) : String :=
  if settings.mode = "curated" then "Curated Knowledge Review"
  else "Learning Snapshot: " ++ (if settings.topic = "" then "General Curiosity" else settings.topic)

/-- Embedding of `generateFallbackFlashcards(context)` from
`llm-gemini.js`; the argument is the optional topic of the context, with
the empty string standing for an absent or falsy topic. -/
def generateFallbackFlashcards (topic : String) : List QA :=
  let t := if topic = "" then "Learning Science" else topic
  [⟨"What is one actionable insight about " ++ t ++ "?",
    "Summarise one takeaway about " ++ t ++ " from today\x27s reading."⟩]

/-- The title cleanup of the heuristic parser: delete every hash, star and
dash character, then trim. -/
def stripTitleChars (s : String) : String :=
  ((s.toList.filter fun c => ¬(c = '#' ∨ c = '*' ∨ c = '-')).asString).trim

/-- Embedding of `fallbackParser(text)` from `llm-gemini.js`: the first
line becomes the title, the next three nonempty trimmed lines the summary
bullets, the remaining lines are joined into a paragraph, and a synthetic
flashcard is attached. -/
def fallbackParser (text : String) : ParsedPayload :=
  let lines := text.splitOn "\n"
  let firstLine := lines.headD ""
  let rest := lines.tail
  { title := some
      (let t := stripTitleChars firstLine
       if t = "" then "LearnPulse Daily Lesson" else t),
    summaryArr := some (((rest.take 3).map String.trim).filter fun s => s ≠ ""),
    summaryScalar := none,
    lesson := some ("<p>" ++ String.intercalate " " rest ++ "</p>"),
    flashcardsArr := some (generateFallbackFlashcards ""),
    sourcesArr := some [],
    exercise := none }

/-- The summary coercion `Array.isArray(parsed.summary) ? parsed.summary
: [parsed.summary].filter(Boolean)` shared by both normalisers. -/
def payloadSummary (p : ParsedPayload) : List String :=
  match p.summaryArr with
  | some l => l
  | none =>
    match p.summaryScalar with
    | some s => [s]
    | none => []

/-- String interpolation of the summary field as the template literal of
the lesson backfill renders it: an array joins with commas, an absent or
falsy summary falls back to the placeholder text. -/
def payloadSummaryDisplay (p : ParsedPayload) : String :=
  match p.summaryArr with
  | some l => String.intercalate "," l
  | none =>
    match p.summaryScalar with
    | some s => s
    | none => "Lesson content unavailable."

/-- The field coercion and backfilling applied by `normaliseModelOutput` in
`llm-gemini.js` to a parsed payload. The curated source backfill models
`chunk.reference || chunk.url || default` through the reference field of
the chunk. -/
def normalisePayload (p : ParsedPayload) (ctx : GenerationContext) : CanonicalLessonResult :=
  let summary := payloadSummary p
  let flashcards := p.flashcardsArr.getD []
  let sources0 := p.sourcesArr.getD []
  let sources :=
    if ctx.settings.mode = "curated" ∧ ctx.curatedChunks ≠ [] ∧ sources0 = [] then
      (ctx.curatedChunks.take 3).map fun ch =>
        ({ title := ch.sourceTitle,
           reference := if ch.reference = "" then "User provided source" else ch.reference } :
          SourceRef)
    else sources0
  { title :=
      let t := p.title.getD ""
      if t = "" then generateFallbackTitle ctx.settings else t,
    summary := if summary = [] then ["Daily concept update from LearnPulse."] else summary,
    lesson :=
      let l := p.lesson.getD ""
      if l = "" then "<p>" ++ payloadSummaryDisplay p ++ "</p>" else l,
    flashcards :=
      if flashcards = [] then generateFallbackFlashcards ctx.settings.topic else flashcards,
    sources := sources,
    exercise :=
      let e := p.exercise.getD ""
      if e = "" then "Reflect on today\x27s concept and write down one question you still have."
      else e }

/-- Shallow embedding of `normaliseModelOutput(rawText, context)` from
`llm-gemini.js` (shared by the cloud and Prompt API paths): the outcome of
`JSON.parse` on the fence-stripped text is injected as `parsed`; on parse
failure the heuristic fallback parser is applied to the cleaned text and
its payload is normalised instead of raising. -/
def normaliseModelOutput (parsed : Except String ParsedPayload) (cleaned : String)
    (ctx : GenerationContext) : CanonicalLessonResult :=
  match parsed with
  | Except.ok p => normalisePayload p ctx
  | Except.error _ => normalisePayload (fallbackParser cleaned) ctx

/-- Shallow embedding of `normaliseOutput(text, context)` from
`lib/llm-ollama.js`: a parse failure is rethrown as a connector error; a
parsed payload is coerced with the local defaults of that connector. -/
def ollamaNormaliseOutput (parsed : Except String ParsedPayload) (ctx : GenerationContext) :
    Except String CanonicalLessonResult :=
  match parsed with
  | Except.error e => Except.error ("Ollama response was not valid JSON: " ++ e)
  | Except.ok p =>
    Except.ok
      { title :=
          let t := p.title.getD ""
          if t = "" then "LearnPulse Lesson" else t,
        summary := payloadSummary p,
        lesson :=
          let l := p.lesson.getD ""
          if l = "" then "<p>No lesson content produced.</p>" else l,
        flashcards := p.flashcardsArr.getD [],
        sources :=
          match p.sourcesArr with
          | some l => l
          | none => (ctx.curatedChunks.take 3).map fun ch => ⟨ch.sourceTitle, ch.reference⟩,
        exercise :=
          let e := p.exercise.getD ""
          if e = "" then "Reflect on what you learned today." else e }

/-- Counterexample to C5: the Ollama connector propagates a JSON parse
failure as a connector error instead of applying the heuristic fallback
parser, so the claim is false for that backend connector. -/
theorem ollamaNormaliseOutput_propagates_parse_error :
    ollamaNormaliseOutput (Except.error "Unexpected token")
      ⟨⟨"autonomous", "Rust"⟩, [], [], [], "1/1/2026"⟩ =
      Except.error "Ollama response was not valid JSON: Unexpected token" := rfl

/-- C5 as amended: in the Gemini connector (also used by the Prompt API
path) a parse failure is recovered locally, the heuristic fallback parser
turning the first line into the title and the following trimmed nonempty
lines (up to three) into summary bullets, and a best-effort result is
returned; the Ollama connector instead surfaces every parse failure as a
connector error. -/
theorem normaliseModelOutput_fallback_on_parse_error :
    (∀ (e cleaned : String) (ctx : GenerationContext),
      normaliseModelOutput (Except.error e) cleaned ctx =
        normalisePayload (fallbackParser cleaned) ctx) ∧
    (∀ cleaned : String,
      (fallbackParser cleaned).title =
        some
          (let t := stripTitleChars ((cleaned.splitOn "\n").headD "")
           if t = "" then "LearnPulse Daily Lesson" else t) ∧
      (fallbackParser cleaned).summaryArr =
        some ((((cleaned.splitOn "\n").tail.take 3).map String.trim).filter fun s => s ≠ "")) ∧
    (∀ (e : String) (ctx : GenerationContext), ∃ msg,
      ollamaNormaliseOutput (Except.error e) ctx = Except.error msg) := by
  refine ⟨fun e cleaned ctx => rfl, fun cleaned => ⟨rfl, rfl⟩, fun e ctx => ?_⟩
  exact ⟨"Ollama response was not valid JSON: " ++ e, rfl⟩

/-- A lesson record as constructed and persisted by `persistDailyContent`. -/
structure LessonRecord where
  id : String
  date : String
  title : String
  summary : List String
  body : String
  sources : List SourceRef
  exercise : String
  generatedAt : String
  mode : String
deriving DecidableEq

/-- Comparison key of the lesson sort: ascending calendar-day key. -/
def lessonDateLe (a b : LessonRecord) : Prop := a.date ≤ b.date

instance : DecidableRel lessonDateLe :=
  fun a b => inferInstanceAs (Decidable (a.date ≤ b.date))

instance : IsTotal LessonRecord lessonDateLe := ⟨fun a b => le_total a.date b.date⟩

instance : IsTrans LessonRecord lessonDateLe := ⟨fun _ _ _ hab hbc => le_trans hab hbc⟩

/-- The lesson sort `(a, b) => (a.date > b.date ? 1 : -1)`. For lists with
pairwise distinct dates every comparison sort agrees with the unique
ascending order, modelled here by insertion sort over the date key. -/
def sortLessonsByDate (l : List LessonRecord) : List LessonRecord :=
  List.insertionSort lessonDateLe l

/-- JavaScript `slice(-n)`: the last `n` entries (all of them when the list
is shorter). -/
def takeLast (n : ℕ) (l : List α) : List α := l.drop (l.length - n)

/-- The lesson-list transformation of `persistDailyContent`: drop any
record of the current day, append the fresh record, sort ascending by
date and keep the most recent 60 entries. -/
def persistLessonList (lessons : List LessonRecord) (todayKey : String)
    (newLesson : LessonRecord) : List LessonRecord :=
  takeLast 60
    (sortLessonsByDate ((lessons.filter fun l => decide (l.date ≠ todayKey)) ++ [newLesson]))

/-- C7: starting from a stored list with pairwise-distinct day keys, none
of them later than today, persisting the lesson of the day leaves at most
60 entries, keeps day keys pairwise distinct, and stores exactly one
entry for the current day: the newly persisted record, which replaces any
earlier same-day record. -/
theorem persistLessonList_daily_upsert
    (lessons : List LessonRecord) (todayKey : String) (newLesson : LessonRecord)
    (hnew : newLesson.date = todayKey)
    (hnodup : (lessons.map fun l => l.date).Nodup)
    (hle : ∀ l ∈ lessons, l.date ≤ todayKey) :
    (persistLessonList lessons todayKey newLesson).length ≤ 60 ∧
    ((persistLessonList lessons todayKey newLesson).map fun l => l.date).Nodup ∧
    (persistLessonList lessons todayKey newLesson).filter
        (fun l => decide (l.date = todayKey)) = [newLesson] := by
  have hsubf : List.Sublist (lessons.filter fun l => decide (l.date ≠ todayKey)) lessons :=
    List.filter_sublist lessons
  have hfiltnodup :
      ((lessons.filter fun l => decide (l.date ≠ todayKey)).map fun l => l.date).Nodup :=
    hnodup.sublist (hsubf.map _)
  have hnotin : newLesson.date ∉
      ((lessons.filter fun l => decide (l.date ≠ todayKey)).map fun l => l.date) := by
    intro hmem
    rw [List.mem_map] at hmem
    obtain ⟨x, hx, hxd⟩ := hmem
    rw [List.mem_filter] at hx
    exact of_decide_eq_true hx.2 (by rw [hxd, hnew])
  have hbasenodup :
      ((((lessons.filter fun l => decide (l.date ≠ todayKey)) ++ [newLesson]).map
        fun l => l.date)).Nodup := by
    rw [List.map_append]
    refine hfiltnodup.append (List.nodup_singleton _) ?_
    intro a ha hb
    rw [List.map_singleton, List.mem_singleton] at hb
    subst hb
    exact hnotin ha
  have hperm : List.Perm
      (sortLessonsByDate ((lessons.filter fun l => decide (l.date ≠ todayKey)) ++ [newLesson]))
      ((lessons.filter fun l => decide (l.date ≠ todayKey)) ++ [newLesson]) :=
    List.perm_insertionSort _ _
  have hsortnodup :
      ((sortLessonsByDate ((lessons.filter fun l => decide (l.date ≠ todayKey)) ++ [newLesson])).map
        fun l => l.date).Nodup :=
    ((hperm.map _).nodup_iff).mpr hbasenodup
  have hfilterbase :
      (((lessons.filter fun l => decide (l.date ≠ todayKey)) ++ [newLesson]).filter
        fun l => decide (l.date = todayKey)) = [newLesson] := by
    rw [List.filter_append]
    have h1 : ((lessons.filter fun l => decide (l.date ≠ todayKey)).filter
        fun l => decide (l.date = todayKey)) = [] := by
      rw [List.filter_eq_nil_iff]
      intro a ha
      rw [List.mem_filter] at ha
      simp only [decide_eq_true_eq]
      exact of_decide_eq_true ha.2
    rw [h1]
    simp [hnew]
  have hfiltersorted :
      ((sortLessonsByDate ((lessons.filter fun l => decide (l.date ≠ todayKey)) ++ [newLesson])).filter
        fun l => decide (l.date = todayKey)) = [newLesson] :=
    List.perm_singleton.mp ((hperm.filter _).trans (by rw [hfilterbase]))
  have hmemnew : newLesson ∈
      sortLessonsByDate ((lessons.filter fun l => decide (l.date ≠ todayKey)) ++ [newLesson]) :=
    hperm.mem_iff.mpr (by simp)
  have hmax : ∀ x ∈
      sortLessonsByDate ((lessons.filter fun l => decide (l.date ≠ todayKey)) ++ [newLesson]),
      x.date ≤ todayKey := by
    intro x hx
    have hxb := hperm.mem_iff.mp hx
    rw [List.mem_append] at hxb
    cases hxb with
    | inl h => exact hle x (List.mem_of_mem_filter h)
    | inr h =>
      rw [List.mem_singleton] at h
      subst h
      exact le_of_eq hnew
  have hsorted : List.Sorted lessonDateLe
      (sortLessonsByDate ((lessons.filter fun l => decide (l.date ≠ todayKey)) ++ [newLesson])) :=
    List.sorted_insertionSort _ _
  refine ⟨?_, ?_, ?_⟩
  · simp only [persistLessonList, takeLast, List.length_drop]
    omega
  · exact hsortnodup.sublist ((List.drop_sublist _ _).map _)
  · simp only [persistLessonList, takeLast]
    generalize hk :
      (sortLessonsByDate ((lessons.filter fun l => decide (l.date ≠ todayKey)) ++ [newLesson])).length
        - 60 = k
    have hsplit :
        ((sortLessonsByDate ((lessons.filter fun l => decide (l.date ≠ todayKey)) ++
            [newLesson])).take k).filter (fun l => decide (l.date = todayKey)) ++
          ((sortLessonsByDate ((lessons.filter fun l => decide (l.date ≠ todayKey)) ++
            [newLesson])).drop k).filter (fun l => decide (l.date = todayKey)) = [newLesson] := by
      rw [← List.filter_append, List.take_append_drop]
      exact hfiltersorted
    have hsubd0 :=
      List.Sublist.filter (fun l => decide (l.date = todayKey))
        (List.drop_sublist k
          (sortLessonsByDate ((lessons.filter fun l => decide (l.date ≠ todayKey)) ++ [newLesson])))
    rw [hfiltersorted] at hsubd0
    have hsubd : List.Sublist
        (((sortLessonsByDate ((lessons.filter fun l => decide (l.date ≠ todayKey)) ++
          [newLesson])).drop k).filter fun l => decide (l.date = todayKey)) [newLesson] := hsubd0
    rcases List.sublist_singleton.mp hsubd with hemp | hdone
    · exfalso
      rw [hemp, List.append_nil] at hsplit
      have hmemtake : newLesson ∈
          (sortLessonsByDate ((lessons.filter fun l => decide (l.date ≠ todayKey)) ++
            [newLesson])).take k := by
        have : newLesson ∈
            ((sortLessonsByDate ((lessons.filter fun l => decide (l.date ≠ todayKey)) ++
              [newLesson])).take k).filter (fun l => decide (l.date = todayKey)) := by
          rw [hsplit]
          exact List.mem_singleton_self _
        exact List.mem_of_mem_filter this
      have hklt : k <
          (sortLessonsByDate ((lessons.filter fun l => decide (l.date ≠ todayKey)) ++
            [newLesson])).length := by
        have hpos : 0 <
            (sortLessonsByDate ((lessons.filter fun l => decide (l.date ≠ todayKey)) ++
              [newLesson])).length :=
          List.length_pos_of_mem hmemnew
        omega
      have hdropne :
          (sortLessonsByDate ((lessons.filter fun l => decide (l.date ≠ todayKey)) ++
            [newLesson])).drop k ≠ [] := by
        intro h
        have hlen := congrArg List.length h
        rw [List.length_drop, List.length_nil] at hlen
        omega
      have hheadmem :
          ((sortLessonsByDate ((lessons.filter fun l => decide (l.date ≠ todayKey)) ++
            [newLesson])).drop k).head hdropne ∈
          (sortLessonsByDate ((lessons.filter fun l => decide (l.date ≠ todayKey)) ++
            [newLesson])).drop k :=
        List.head_mem hdropne
      have hpw : List.Pairwise lessonDateLe
          ((sortLessonsByDate ((lessons.filter fun l => decide (l.date ≠ todayKey)) ++
            [newLesson])).take k ++
           (sortLessonsByDate ((lessons.filter fun l => decide (l.date ≠ todayKey)) ++
            [newLesson])).drop k) := by
        rw [List.take_append_drop]
        exact hsorted
      have hrel := (List.pairwise_append.mp hpw).2.2 newLesson hmemtake _ hheadmem
      have hheadsorted :
          ((sortLessonsByDate ((lessons.filter fun l => decide (l.date ≠ todayKey)) ++
            [newLesson])).drop k).head hdropne ∈
          sortLessonsByDate ((lessons.filter fun l => decide (l.date ≠ todayKey)) ++
            [newLesson]) :=
        List.mem_of_mem_drop hheadmem
      have hheaddate :
          (((sortLessonsByDate ((lessons.filter fun l => decide (l.date ≠ todayKey)) ++
            [newLesson])).drop k).head hdropne).date = todayKey := by
        refine le_antisymm (hmax _ hheadsorted) ?_
        have : newLesson.date ≤
            (((sortLessonsByDate ((lessons.filter fun l => decide (l.date ≠ todayKey)) ++
              [newLesson])).drop k).head hdropne).date := hrel
        rw [hnew] at this
        exact this
      have hheadfilter :
          ((sortLessonsByDate ((lessons.filter fun l => decide (l.date ≠ todayKey)) ++
            [newLesson])).drop k).head hdropne ∈
          ((sortLessonsByDate ((lessons.filter fun l => decide (l.date ≠ todayKey)) ++
            [newLesson])).filter fun l => decide (l.date = todayKey)) :=
        List.mem_filter.mpr ⟨hheadsorted, decide_eq_true hheaddate⟩
      rw [hfiltersorted, List.mem_singleton] at hheadfilter
      rw [hheadfilter] at hheadmem
      have : newLesson ∈
          ((sortLessonsByDate ((lessons.filter fun l => decide (l.date ≠ todayKey)) ++
            [newLesson])).drop k).filter (fun l => decide (l.date = todayKey)) :=
        List.mem_filter.mpr ⟨hheadmem, decide_eq_true hnew⟩
      rw [hemp] at this
      exact (List.not_mem_nil _) this
    · exact hdone

/-- Witness for C7 on a concrete store: one prior-day lesson plus a second
same-day insert for today leaves two entries, with exactly the later
record under the key of the current day. -/
theorem persistLessonList_daily_upsert_witness :
    (persistLessonList
      [⟨"lesson-2026-10-10", "2026-10-10", "Before", [], "", [], "", "t0", "autonomous"⟩,
       ⟨"lesson-2026-10-11", "2026-10-11", "Early draft", [], "", [], "", "t1", "autonomous"⟩]
      "2026-10-11"
      ⟨"lesson-2026-10-11", "2026-10-11", "Final", [], "", [], "", "t2", "autonomous"⟩).length ≤ 60 ∧
    (persistLessonList
      [⟨"lesson-2026-10-10", "2026-10-10", "Before", [], "", [], "", "t0", "autonomous"⟩,
       ⟨"lesson-2026-10-11", "2026-10-11", "Early draft", [], "", [], "", "t1", "autonomous"⟩]
      "2026-10-11"
      ⟨"lesson-2026-10-11", "2026-10-11", "Final", [], "", [], "", "t2", "autonomous"⟩).filter
        (fun l => decide (l.date = "2026-10-11")) =
      [⟨"lesson-2026-10-11", "2026-10-11", "Final", [], "", [], "", "t2", "autonomous"⟩] := by
  have h := persistLessonList_daily_upsert
    [⟨"lesson-2026-10-10", "2026-10-10", "Before", [], "", [], "", "t0", "autonomous"⟩,
     ⟨"lesson-2026-10-11", "2026-10-11", "Early draft", [], "", [], "", "t1", "autonomous"⟩]
    "2026-10-11"
    ⟨"lesson-2026-10-11", "2026-10-11", "Final", [], "", [], "", "t2", "autonomous"⟩
    rfl (by decide)
    (by
      intro l hl
      fin_cases hl <;> (rw [String.le_iff_toList_le]; try decide))
  exact ⟨h.1, h.2.2⟩

end LearnPulse
